import Mathlib

/-!
Shallow embedding of the accessibility-fixing CI scripts of this repository:
the bounded LLM tool-calling conversation loop (whose per-iteration body is
shared verbatim between the script variants, with `analyzeWithDirectCalls`
modelling the loop body and `analyzeAndFixWithDirectCalls` the cited
variant's terminal error handling), the tool dispatcher `executeFunction`,
and the contrast-ratio fallback and fix appliers of
`.github/scripts/llm-accessibility-fixer.js`.

JavaScript numbers are modelled as real numbers extended with a NaN element
(`JSNum`); the model tracks NaN propagation but not signed infinities, which
no code path reached by the claims can produce.  External collaborators (the
OpenAI completion endpoint, the MCP stdio client, the JSON parser applied to
uninterpreted tool replies) are parameters of the embedded functions; a rejected
promise is modelled as the `Except.error` branch carrying the error message.
-/

/- ===== Conversation loop (analyzeWithDirectCalls in llm-direct-mcp.js) ===== -/

/-- Roles of chat messages in the OpenAI conversation transcript. -/
inductive Role where
  | system : Role
  | user : Role
  | assistant : Role
  | tool : Role
deriving DecidableEq, Repr

/-- A structured tool call emitted by the assistant.  The `args` field keeps
the raw JSON arguments text; under strict function schemas the completion
endpoint guarantees it parses, so the loop model hands it unchanged to the
executor. -/
structure ToolCall where
  id : String
  name : String
  args : String
deriving DecidableEq, Repr

/-- One entry of the conversation transcript, as pushed onto `messages`. -/
structure ChatMessage where
  role : Role
  content : String
  tool_calls : List ToolCall := []
  tool_call_id : Option String := none
deriving DecidableEq, Repr

/-- The assistant message extracted from `response.choices[0].message`. -/
structure AssistantReply where
  content : String
  tool_calls : List ToolCall := []
deriving DecidableEq, Repr

/-- The record returned by the loop on a terminal state. -/
structure LoopResult where
  analysis : String
  toolCalls : Nat
  conversationHistory : List ChatMessage
deriving DecidableEq, Repr

/-- The message pushed for the assistant turn:
`messages.push(\x7brole: "assistant", content, tool_calls\x7d)`. -/
def assistantMessage (r : AssistantReply) : ChatMessage :=
  { role := Role.assistant, content := r.content, tool_calls := r.tool_calls,
    tool_call_id := none }

/-- The message pushed for one tool result:
`messages.push(\x7brole: "tool", tool_call_id, content\x7d)`. -/
def toolMessage (id : String) (content : String) : ChatMessage :=
  { role := Role.tool, content := content, tool_calls := [],
    tool_call_id := some id }

/-- The iteration cap hard-coded in the script: `const maxIterations = 5`. -/
def maxIterationsDefault : Nat := 5

/-- Embedding of the `while (iterations < maxIterations)` loop body shared
by the script variants: one completion request per pass, the assistant turn
appended, then one tool-result message per call before looping, a terminal
return on a no-tool-call reply, and the sentinel on exhaustion.  `llm` is
the completion collaborator (the body of `openai.chat.completions.create`
followed by `response.choices[0].message`); an `Except.error` is a rejected
promise.  In this rendering the rejection escapes as `Except.error`; the
cited variant instead catches it inside the loop - that terminal behavior is
embedded separately as `analyzeAndFixWithDirectCalls` below.  `runTool`
composes the argument parse, `executeFunction`, and `JSON.stringify` into
the content string of the tool message. -/
def analyzeWithDirectCalls
    (llm : List ChatMessage → Except String AssistantReply)
    (runTool : String → String → String)
    (maxIterations iterations : Nat)
    (messages : List ChatMessage) : Except String LoopResult :=
  if h : iterations < maxIterations then
    let iterationsNext := iterations + 1
    match llm messages with
    | Except.error e => Except.error e
    | Except.ok message =>
      let messages1 := messages ++ [assistantMessage message]
      if message.tool_calls.length > 0 then
        let messages2 := messages1 ++
          message.tool_calls.map (fun tc => toolMessage tc.id (runTool tc.name tc.args))
        analyzeWithDirectCalls llm runTool maxIterations iterationsNext messages2
      else
        Except.ok { analysis := message.content, toolCalls := iterationsNext - 1,
                    conversationHistory := messages1 }
  else
    Except.ok { analysis := "Max iterations reached", toolCalls := iterations,
                conversationHistory := messages }
termination_by maxIterations - iterations
decreasing_by omega

/-- Instrumentation of the same loop counting how many completion requests
are issued to the LLM collaborator (each pass of the `while` body issues
exactly one, including a failing one). -/
def llmRoundCount
    (llm : List ChatMessage → Except String AssistantReply)
    (runTool : String → String → String)
    (maxIterations iterations : Nat)
    (messages : List ChatMessage) : Nat :=
  if h : iterations < maxIterations then
    match llm messages with
    | Except.error _ => 1
    | Except.ok message =>
      if message.tool_calls.length > 0 then
        1 + llmRoundCount llm runTool maxIterations (iterations + 1)
          ((messages ++ [assistantMessage message]) ++
            message.tool_calls.map (fun tc => toolMessage tc.id (runTool tc.name tc.args)))
      else 1
  else 0
termination_by maxIterations - iterations
decreasing_by omega

/- ===== Cited conversation loop (analyzeAndFixWithDirectCalls) ===== -/

/-- Arguments object handed to `executeFunction`, with JavaScript-style
optional fields (an absent field is `none`). -/
structure FnArgs where
  html : Option String := none
  tags : Option (List String) := none
  foreground : Option String := none
  background : Option String := none
  fontSize : Option Nat := none
  isBold : Option Bool := none
deriving DecidableEq, Repr

/-- Normalized argument record for `a11yClient.callTool`. -/
structure MCPCallArgs where
  html : Option String := none
  tags : List String := []
  foreground : Option String := none
  background : Option String := none
  fontSize : Nat := 0
  isBold : Bool := false
deriving DecidableEq, Repr

/-- One entry of `result.content` in an MCP tool reply; `text` is `none` when
the field is absent. -/
structure MCPContent where
  type : String := "text"
  text : Option String := none
deriving DecidableEq, Repr

/-- An MCP tool reply.  A null or missing `content` field is conflated with
the empty list, which the dispatcher treats identically. -/
structure MCPResult where
  content : List MCPContent := []
deriving DecidableEq, Repr

/-- JavaScript value returned by the tool helpers and the dispatcher: a
parsed JSON payload (represented by the abstract value produced by the parse
collaborator), the JavaScript null value, or an error object
`\x7b error: message \x7d`. -/
inductive ToolOutcome where
  | payload : String → ToolOutcome
  | nullValue : ToolOutcome
  | error : String → ToolOutcome
deriving DecidableEq, Repr

/-- JavaScript `x || d` on a possibly-absent number: `0` is falsy, so both an
absent field and `0` fall back to the default. -/
def jsOrNat (o : Option Nat) (d : Nat) : Nat :=
  match o with
  | some n => if n = 0 then d else n
  | none => d

/-- Shared tail of the tool helpers (`testHtmlAccessibility`,
`checkColorContrast`, `getAccessibilityRules`):
`if (result.content && result.content[0]?.text) return JSON.parse(...);
return null`.  A reply with no content entry, an absent text field, or an
empty text string (falsy in JavaScript) yields the JavaScript null value,
not an error object. -/
def citedToolReply (parseJson : String → Except String String)
    (result : MCPResult) : Except String ToolOutcome :=
  match result.content.head? with
  | some item =>
    match item.text with
    | some t =>
      if t = "" then Except.ok ToolOutcome.nullValue
      else (parseJson t).map ToolOutcome.payload
    | none => Except.ok ToolOutcome.nullValue
  | none => Except.ok ToolOutcome.nullValue

/-- The dispatch body of `executeFunction` of the cited
`llm-accessibility-fixer.js`: route the three recognized operation names
(`test_html_accessibility`, `check_color_contrast`,
`get_accessibility_rules`) to the MCP collaborator and normalize each reply,
returning an error object for an unrecognized name.  `callTool` is the MCP
client collaborator (errors are rejected promises); `parseJson` is
`JSON.parse` applied to the reply text (errors are thrown parse
failures). -/
def executeFunctionTry
    (callTool : String → MCPCallArgs → Except String MCPResult)
    (parseJson : String → Except String String)
    (name : String) (args : FnArgs) : Except String ToolOutcome :=
  if name = "test_html_accessibility" then
    (callTool "test_html_string"
      { html := args.html, tags := args.tags.getD ["wcag2aa"] }).bind
      (citedToolReply parseJson)
  else if name = "check_color_contrast" then
    (callTool "check_color_contrast"
      { foreground := args.foreground, background := args.background,
        fontSize := jsOrNat args.fontSize 16,
        isBold := args.isBold.getD false }).bind
      (citedToolReply parseJson)
  else if name = "get_accessibility_rules" then
    (callTool "get_rules" { tags := args.tags.getD ["wcag2aa"] }).bind
      (citedToolReply parseJson)
  else
    Except.ok (ToolOutcome.error ("Unknown function: " ++ name))

/-- Embedding of `executeFunction` of the cited script: the dispatch body
with the enclosing `catch (error) \x7b return \x7b error: error.message \x7d \x7d`,
which converts every throw (connection failure, JSON parse failure) into an
error object, so nothing is thrown past this layer. -/
def executeFunction
    (callTool : String → MCPCallArgs → Except String MCPResult)
    (parseJson : String → Except String String)
    (name : String) (args : FnArgs) : ToolOutcome :=
  match executeFunctionTry callTool parseJson name args with
  | Except.ok r => r
  | Except.error e => ToolOutcome.error e

/- ===== Number model for the contrast fallback ===== -/

/-- JavaScript number restricted to the fragment the contrast fallback can
reach: a real value or NaN.  Signed infinities are not modelled; they would
require a division by exactly zero, which no input reachable by the claims
produces. -/
inductive JSNum where
  | nan : JSNum
  | num : ℝ → JSNum

/-- Addition; NaN propagates as in IEEE arithmetic. -/
noncomputable def JSNum.add : JSNum → JSNum → JSNum
  | JSNum.num x, JSNum.num y => JSNum.num (x + y)
  | _, _ => JSNum.nan

/-- Multiplication by a real constant; NaN propagates. -/
noncomputable def JSNum.scale (k : ℝ) : JSNum → JSNum
  | JSNum.num x => JSNum.num (k * x)
  | JSNum.nan => JSNum.nan

/-- Division; NaN propagates.  The zero-denominator case, where JavaScript
produces an infinity, is outside the modelled fragment. -/
noncomputable def JSNum.jdiv : JSNum → JSNum → JSNum
  | JSNum.num x, JSNum.num y => JSNum.num (x / y)
  | _, _ => JSNum.nan

/-- JavaScript Math.max: NaN absorbs. -/
noncomputable def JSNum.jmax : JSNum → JSNum → JSNum
  | JSNum.num x, JSNum.num y => JSNum.num (max x y)
  | _, _ => JSNum.nan

/-- JavaScript Math.min: NaN absorbs. -/
noncomputable def JSNum.jmin : JSNum → JSNum → JSNum
  | JSNum.num x, JSNum.num y => JSNum.num (min x y)
  | _, _ => JSNum.nan

/-- The JavaScript comparison `a >= b` against a constant: false when `a` is
NaN. -/
noncomputable def JSNum.jge (a : JSNum) (b : ℝ) : Bool :=
  match a with
  | JSNum.nan => false
  | JSNum.num x => decide (b ≤ x)

/- ===== String helpers for the hex-color pipeline ===== -/

/-- Remove the first occurrence of a character from a character list:
`color.replace(Char, EmptyString)` with a one-character string pattern. -/
def replaceFirstChar : List Char → Char → List Char
  | [], _ => []
  | c :: cs, p => if c = p then cs else c :: replaceFirstChar cs p

/-- JavaScript `s.substr(start, len)` for nonnegative `start`: up to `len`
characters from index `start`, empty when `start` is past the end. -/
def jsSubstr (s : String) (start len : Nat) : String :=
  String.mk ((s.data.drop start).take len)

/-- Hexadecimal digit test, as `parseInt(_, 16)` accepts: `0`-`9`, `a`-`f`,
`A`-`F`. -/
def isHexDig (c : Char) : Bool :=
  (('0' ≤ c) && (c ≤ '9')) || (('a' ≤ c) && (c ≤ 'f')) || (('A' ≤ c) && (c ≤ 'F'))

/-- Numeric value of a hexadecimal digit (0 for other characters). -/
def hexDigVal (c : Char) : Nat :=
  if ('0' ≤ c) && (c ≤ '9') then c.toNat - 48
  else if ('a' ≤ c) && (c ≤ 'f') then c.toNat - 87
  else if ('A' ≤ c) && (c ≤ 'F') then c.toNat - 55
  else 0

/-- Value of a hexadecimal digit string. -/
def hexListVal (cs : List Char) : Nat :=
  cs.foldl (fun acc c => 16 * acc + hexDigVal c) 0

/-- A radix-16 `parseInt` drops a leading `0x` or `0X`. -/
def strip0x : List Char → List Char
  | c0 :: c1 :: rest =>
    if (c0 = '0') && ((c1 = 'x') || (c1 = 'X')) then rest else c0 :: c1 :: rest
  | cs => cs

/-- JavaScript parseInt with radix 16: value of the longest leading hexadecimal-digit prefix
after an optional `0x`, or NaN (`none`) when there is no leading digit.  The
call sites feed it two-character slices of color strings, which never carry
the sign or leading-whitespace forms of the full builtin, so those are not
modelled. -/
def parseIntHex (s : String) : Option Nat :=
  match strip0x s.data with
  | [] => none
  | c :: cs =>
    if isHexDig c then some (hexListVal ((c :: cs).takeWhile isHexDig)) else none

/-- Channel byte divided by 255, `parseInt(...) / 255`: NaN when the parse
failed. -/
noncomputable def channelToJS (o : Option Nat) : JSNum :=
  match o with
  | none => JSNum.nan
  | some n => JSNum.num ((n : ℝ) / 255)

/- ===== The contrast fallback (calculateContrastRatio) ===== -/

/-- Result object of `calculateContrastRatio`. -/
structure ContrastResult where
  contrastRatio : JSNum
  passes : Bool
  wcagAA : Bool
  wcagAAA : Bool

/-- The piecewise sRGB linearization applied to each channel:
`c <= 0.03928 ? c / 12.92 : Math.pow((c + 0.055) / 1.055, 2.4)`.  A NaN
channel fails the comparison and NaN propagates through `Math.pow`. -/
noncomputable def srgbComponent : JSNum → JSNum
  | JSNum.nan => JSNum.nan
  | JSNum.num c =>
    if c ≤ 0.03928 then JSNum.num (c / 12.92)
    else JSNum.num (((c + 0.055) / 1.055) ^ (2.4 : ℝ))

/-- The getLuminance closure of the fallback: strip the first `#`, slice three
two-character channel substrings, parse each as hex, linearize, and take the
weighted sum.  The inner `catch` (returning the 0.5 default) is unreachable
for string inputs, since none of these operations throws in JavaScript, so
it is not part of the model. -/
noncomputable def getLuminance (color : String) : JSNum :=
  let hex := String.mk (replaceFirstChar color.data '#')
  let r := channelToJS (parseIntHex (jsSubstr hex 0 2))
  let g := channelToJS (parseIntHex (jsSubstr hex 2 2))
  let b := channelToJS (parseIntHex (jsSubstr hex 4 2))
  JSNum.add
    (JSNum.add (JSNum.scale 0.2126 (srgbComponent r))
      (JSNum.scale 0.7152 (srgbComponent g)))
    (JSNum.scale 0.0722 (srgbComponent b))

/-- Embedding of calculateContrastRatio of `llm-accessibility-fixer.js`.  The outer
`catch` (returning ratio 1 with all flags false) is likewise unreachable for
string inputs and therefore absent from the model: malformed input surfaces
as NaN, not as an exception. -/
noncomputable def calculateContrastRatio (color1 color2 : String) : ContrastResult :=
  let lum1 := getLuminance color1
  let lum2 := getLuminance color2
  let brightest := JSNum.jmax lum1 lum2
  let darkest := JSNum.jmin lum1 lum2
  let ratio := JSNum.jdiv (JSNum.add brightest (JSNum.num 0.05))
    (JSNum.add darkest (JSNum.num 0.05))
  { contrastRatio := ratio
    passes := JSNum.jge ratio 4.5
    wcagAA := JSNum.jge ratio 4.5
    wcagAAA := JSNum.jge ratio 7.0 }

/- ===== Spec-side contrast definitions (from the words of the spec) ===== -/

/-- The digits of a color with an optional leading `#` removed. -/
def hexDigitsOf (s : String) : List Char :=
  match s.data with
  | c :: cs => if c = '#' then cs else c :: cs
  | [] => []

/-- A color is valid when it is exactly six hexadecimal digits after an
optional leading `#`. -/
def isValidHexColor (s : String) : Bool :=
  ((hexDigitsOf s).length = 6) && (hexDigitsOf s).all isHexDig

/-- The `i`-th channel byte (i = 0, 1, 2) of a valid color. -/
def channel (s : String) (i : Nat) : Nat :=
  hexListVal (((hexDigitsOf s).drop (2 * i)).take 2)

/-- Spec formula: the piecewise sRGB-to-linear transform. -/
noncomputable def srgbToLinearSpec (c : ℝ) : ℝ :=
  if c ≤ 0.03928 then c / 12.92 else ((c + 0.055) / 1.055) ^ (2.4 : ℝ)

/-- Spec formula: relative luminance of channel bytes 0-255. -/
noncomputable def relativeLuminanceSpec (r g b : ℕ) : ℝ :=
  0.2126 * srgbToLinearSpec ((r : ℝ) / 255) +
    0.7152 * srgbToLinearSpec ((g : ℝ) / 255) +
    0.0722 * srgbToLinearSpec ((b : ℝ) / 255)

/-- Spec formula: luminance of a valid color via its three channels. -/
noncomputable def colorLuminanceSpec (s : String) : ℝ :=
  relativeLuminanceSpec (channel s 0) (channel s 1) (channel s 2)

/-- Spec formula: contrast ratio of two luminances. -/
noncomputable def contrastRatioSpec (l1 l2 : ℝ) : ℝ :=
  (max l1 l2 + 0.05) / (min l1 l2 + 0.05)

/- ===== A11yFix applier (applyFixes / applyColorFixFlexible) ===== -/

/-- A proposed fix record from the fix plan. -/
structure A11yFix where
  type : String := ""
  description : String := ""
  originalCode : String := ""
  fixedCode : String := ""
  explanation : String := ""
deriving DecidableEq, Repr

/-- JavaScript `l.includes(pat)` on strings: some position of `l` starts with
`pat` (always true for the empty pattern). -/
def strIncludes (l pat : List Char) : Bool :=
  match l with
  | [] => pat.isEmpty
  | _ :: cs => pat.isPrefixOf l || strIncludes cs pat

/-- JavaScript `l.replace(pat, rep)` with a plain-string pattern: replace the
first occurrence only; the document is returned unchanged when the pattern
does not occur.  Dollar escape sequences in the replacement are not
modelled; no claim concerns them. -/
def replaceFirstStr (pat rep : List Char) : List Char → List Char
  | [] => if pat.isEmpty then rep else []
  | c :: cs =>
    if pat.isPrefixOf (c :: cs) then rep ++ (c :: cs).drop pat.length
    else c :: replaceFirstStr pat rep cs

/-- JavaScript `String.prototype.trim`. -/
def jsTrim (cs : List Char) : List Char :=
  ((cs.dropWhile Char.isWhitespace).reverse.dropWhile Char.isWhitespace).reverse

/-- The first-match capture of the non-global regex
`/prop\s(star)([^;]+)/` at or after the current position, scanning left to
right.  At a position where `prop` occurs literally, the whitespace run `w`
is consumed greedily; if at least one non-semicolon character follows, the
capture runs to the next semicolon; otherwise the engine backtracks one
whitespace character into the capture when it can, and otherwise moves on to
the next position. -/
def extractDeclValue (prop : List Char) : List Char → Option (List Char)
  | [] => none
  | c :: cs =>
    if prop.isPrefixOf (c :: cs) then
      let rest := (c :: cs).drop prop.length
      let w := rest.takeWhile Char.isWhitespace
      match (rest.drop w.length).head? with
      | some d =>
        if d = ';' then
          match w.getLast? with
          | some e => some [e]
          | none => extractDeclValue prop cs
        else some ((rest.drop w.length).takeWhile (fun x => !(x = ';')))
      | none =>
        match w.getLast? with
        | some e => some [e]
        | none => extractDeclValue prop cs
    else extractDeclValue prop cs

/-- Case-insensitive literal prefix test, the `i` flag on an escaped
pattern. -/
def ciAt (pat l : List Char) : Bool :=
  (l.take pat.length).map Char.toLower == pat.map Char.toLower

/-- Length of a match of the global regex `prop` + whitespace-run + literal
`old` (flags `gi`, `old` escaped so it is matched literally) at the current
position.  The whitespace run is maximal, which is exact because `old` is
trimmed and hence never starts with a whitespace character. -/
def declMatchLen (prop old cs : List Char) : Option Nat :=
  if ciAt prop cs then
    let rest := cs.drop prop.length
    let w := rest.takeWhile Char.isWhitespace
    if ciAt old (rest.drop w.length) then
      some (prop.length + w.length + old.length)
    else none
  else none

/-- Global replacement `l.replace(regex-with-gi, rep)`: scan left to right,
replacing each non-overlapping leftmost match and resuming after it.  The
recursive call drops `n - 1` characters of the tail, which equals dropping
the whole `n`-character match because every call site passes a nonempty
`prop`, so `n` is at least 1. -/
def replaceScan (prop old rep : List Char) : List Char → List Char
  | [] => []
  | c :: cs =>
    match declMatchLen prop old (c :: cs) with
    | some n => rep ++ replaceScan prop old rep (cs.drop (n - 1))
    | none => c :: replaceScan prop old rep cs
termination_by l => l.length
decreasing_by all_goals (simp [List.length_drop]; try omega)

/-- Embedding of applyColorFixFlexible: extract the value following `color:` from both
`originalCode` and `fixedCode`; when both extractions succeed, globally
replace `color:` declarations of the old value in the document,
case-insensitively and with the old value taken literally.  Only when the
foreground extraction fails on either code does it attempt the same with
`background-color:`; otherwise the document is returned unchanged. -/
def applyColorFixFlexible (htmlContent : String) (f : A11yFix) : String :=
  match extractDeclValue "color:".data f.originalCode.data,
        extractDeclValue "color:".data f.fixedCode.data with
  | some o, some v =>
    let originalColor := jsTrim o
    let fixedColor := jsTrim v
    String.mk (replaceScan "color:".data originalColor
      ("color: ".data ++ fixedColor) htmlContent.data)
  | _, _ =>
    match extractDeclValue "background-color:".data f.originalCode.data,
          extractDeclValue "background-color:".data f.fixedCode.data with
    | some o, some v =>
      String.mk (replaceScan "background-color:".data (jsTrim o)
        ("background-color: ".data ++ jsTrim v) htmlContent.data)
    | _, _ => htmlContent

/-- One pass of the `for (const fix of fixPlan.fixes)` body of `applyFixes`
(the fixer-script variant whose color validation only logs and never
blocks).  The guard `fix.originalCode && fix.fixedCode` skips a fix whose
original or fixed code is the empty string, since empty strings are falsy in
JavaScript. -/
def applyFixesStep (content : String) (applied : Nat) (f : A11yFix) : String × Nat :=
  if (f.originalCode ≠ "") ∧ (f.fixedCode ≠ "") then
    if strIncludes content.data f.originalCode.data then
      (String.mk (replaceFirstStr f.originalCode.data f.fixedCode.data content.data),
        applied + 1)
    else if f.type = "color-contrast" then
      let colorFixed := applyColorFixFlexible content f
      if colorFixed ≠ content then (colorFixed, applied + 1) else (content, applied)
    else (content, applied)
  else (content, applied)

/-- Embedding of applyFixes: fold the per-fix step over the fix list, accumulating the
progressively patched document and the applied count. -/
def applyFixes (htmlContent : String) (fixes : List A11yFix) : String × Nat :=
  fixes.foldl (fun st f => applyFixesStep st.1 st.2 f) (htmlContent, 0)

/- ===== Concrete scripted collaborators for witnesses and counterexamples ===== -/

/-- A two-message initial transcript (system prompt and user prompt). -/
def initMessages : List ChatMessage :=
  [ { role := Role.system, content := "You are an accessibility expert." },
    { role := Role.user, content := "Analyze this HTML file." } ]

/-- A tool executor returning a fixed reply text. -/
def runToolConst : String → String → String := fun _ _ => "null"

/-- An assistant reply carrying exactly one tool call. -/
def replyOneCall : AssistantReply :=
  { content := "",
    tool_calls := [{ id := "call_1", name := "test_html_accessibility", args := "null" }] }

/-- A scripted collaborator whose every reply requests one tool call. -/
def llmAlwaysCalls : List ChatMessage → Except String AssistantReply :=
  fun _ => Except.ok replyOneCall

/-- An MCP collaborator that always fails with a connection error. -/
def callToolFail : String → MCPCallArgs → Except String MCPResult :=
  fun _ _ => Except.error "connection closed"

/-- An MCP collaborator returning a reply with no content entries. -/
def callToolEmpty : String → MCPCallArgs → Except String MCPResult :=
  fun _ _ => Except.ok { content := [] }

/-- A JSON parse collaborator that accepts every text unchanged. -/
def parseJsonId : String → Except String String := fun s => Except.ok s

/-- A fix record with an empty `originalCode`, as the generic code-block
fallback of the free-text extraction produces. -/
def emptyOriginalFix : A11yFix :=
  { type := "color-contrast", description := "generic block",
    originalCode := "", fixedCode := "color: #000000", explanation := "" }

/- ===== Helper lemmas: one-step behavior of the conversation loop ===== -/

/-- When the iteration budget is exhausted the loop returns the sentinel. -/
theorem loop_exhaust (llm : List ChatMessage → Except String AssistantReply)
    (runTool : String → String → String) (maxIterations iterations : Nat)
    (messages : List ChatMessage) (h : ¬ iterations < maxIterations) :
    analyzeWithDirectCalls llm runTool maxIterations iterations messages =
      Except.ok { analysis := "Max iterations reached", toolCalls := iterations,
                  conversationHistory := messages } := by
  rw [analyzeWithDirectCalls]
  simp [h]

/-- A failing completion request aborts the loop with the same error. -/
theorem loop_error (llm : List ChatMessage → Except String AssistantReply)
    (runTool : String → String → String) (maxIterations iterations : Nat)
    (messages : List ChatMessage) (e : String)
    (h : iterations < maxIterations) (he : llm messages = Except.error e) :
    analyzeWithDirectCalls llm runTool maxIterations iterations messages =
      Except.error e := by
  rw [analyzeWithDirectCalls]
  simp [h, he]

/-- A tool-calling assistant turn appends the assistant message and one tool
result per call, then continues with the next iteration. -/
theorem loop_step (llm : List ChatMessage → Except String AssistantReply)
    (runTool : String → String → String) (maxIterations iterations : Nat)
    (messages : List ChatMessage) (r : AssistantReply)
    (h : iterations < maxIterations) (hok : llm messages = Except.ok r)
    (htc : r.tool_calls ≠ []) :
    analyzeWithDirectCalls llm runTool maxIterations iterations messages =
      analyzeWithDirectCalls llm runTool maxIterations (iterations + 1)
        ((messages ++ [assistantMessage r]) ++
          r.tool_calls.map (fun tc => toolMessage tc.id (runTool tc.name tc.args))) := by
  rw [analyzeWithDirectCalls]
  have hlen : r.tool_calls.length > 0 := List.length_pos.mpr htc
  simp [h, hok, hlen]

/-- An assistant turn without tool calls is the terminal success state. -/
theorem loop_final (llm : List ChatMessage → Except String AssistantReply)
    (runTool : String → String → String) (maxIterations iterations : Nat)
    (messages : List ChatMessage) (r : AssistantReply)
    (h : iterations < maxIterations) (hok : llm messages = Except.ok r)
    (htc : r.tool_calls = []) :
    analyzeWithDirectCalls llm runTool maxIterations iterations messages =
      Except.ok { analysis := r.content, toolCalls := iterations,
                  conversationHistory := messages ++ [assistantMessage r] } := by
  rw [analyzeWithDirectCalls]
  simp [h, hok, htc]

/-- Round-count analogue of `loop_exhaust`. -/
theorem count_exhaust (llm : List ChatMessage → Except String AssistantReply)
    (runTool : String → String → String) (maxIterations iterations : Nat)
    (messages : List ChatMessage) (h : ¬ iterations < maxIterations) :
    llmRoundCount llm runTool maxIterations iterations messages = 0 := by
  rw [llmRoundCount]
  simp [h]

/-- Round-count analogue of `loop_error`. -/
theorem count_error (llm : List ChatMessage → Except String AssistantReply)
    (runTool : String → String → String) (maxIterations iterations : Nat)
    (messages : List ChatMessage) (e : String)
    (h : iterations < maxIterations) (he : llm messages = Except.error e) :
    llmRoundCount llm runTool maxIterations iterations messages = 1 := by
  rw [llmRoundCount]
  simp [h, he]

/-- Round-count analogue of `loop_step`. -/
theorem count_step (llm : List ChatMessage → Except String AssistantReply)
    (runTool : String → String → String) (maxIterations iterations : Nat)
    (messages : List ChatMessage) (r : AssistantReply)
    (h : iterations < maxIterations) (hok : llm messages = Except.ok r)
    (htc : r.tool_calls ≠ []) :
    llmRoundCount llm runTool maxIterations iterations messages =
      1 + llmRoundCount llm runTool maxIterations (iterations + 1)
        ((messages ++ [assistantMessage r]) ++
          r.tool_calls.map (fun tc => toolMessage tc.id (runTool tc.name tc.args))) := by
  rw [llmRoundCount]
  have hlen : r.tool_calls.length > 0 := List.length_pos.mpr htc
  simp [h, hok, hlen]

/-- Round-count analogue of `loop_final`. -/
theorem count_final (llm : List ChatMessage → Except String AssistantReply)
    (runTool : String → String → String) (maxIterations iterations : Nat)
    (messages : List ChatMessage) (r : AssistantReply)
    (h : iterations < maxIterations) (hok : llm messages = Except.ok r)
    (htc : r.tool_calls = []) :
    llmRoundCount llm runTool maxIterations iterations messages = 1 := by
  rw [llmRoundCount]
  simp [h, hok, htc]

/-- The loop never issues more completion requests than its remaining
iteration budget. -/
theorem llmRoundCount_le (llm : List ChatMessage → Except String AssistantReply)
    (runTool : String → String → String) :
    ∀ k maxIterations iterations messages, maxIterations - iterations ≤ k →
      llmRoundCount llm runTool maxIterations iterations messages ≤
        maxIterations - iterations := by
  intro k
  induction k with
  | zero =>
    intro maxIt its msgs hk
    rw [count_exhaust llm runTool maxIt its msgs (by omega)]
    omega
  | succ n ih =>
    intro maxIt its msgs hk
    by_cases h : its < maxIt
    · cases hll : llm msgs with
      | error e =>
        rw [count_error llm runTool maxIt its msgs e h hll]
        omega
      | ok r =>
        by_cases htc : r.tool_calls = []
        · rw [count_final llm runTool maxIt its msgs r h hll htc]
          omega
        · rw [count_step llm runTool maxIt its msgs r h hll htc]
          have := ih maxIt (its + 1)
            ((msgs ++ [assistantMessage r]) ++
              r.tool_calls.map (fun tc => toolMessage tc.id (runTool tc.name tc.args)))
            (by omega)
          omega
    · rw [count_exhaust llm runTool maxIt its msgs h]
      omega

/-- Against a collaborator whose every reply carries a tool call, the loop
runs its budget to exhaustion: it returns the sentinel with `toolCalls`
equal to the cap and issues exactly the remaining budget of completion
requests. -/
theorem loop_exhausts_on_allcalls
    (llm : List ChatMessage → Except String AssistantReply)
    (runTool : String → String → String)
    (hscript : ∀ ms, ∃ r, llm ms = Except.ok r ∧ r.tool_calls ≠ []) :
    ∀ k maxIterations iterations messages,
      maxIterations - iterations = k → iterations ≤ maxIterations →
      (∃ hist, analyzeWithDirectCalls llm runTool maxIterations iterations messages =
         Except.ok { analysis := "Max iterations reached", toolCalls := maxIterations,
                     conversationHistory := hist }) ∧
      llmRoundCount llm runTool maxIterations iterations messages =
        maxIterations - iterations := by
  intro k
  induction k with
  | zero =>
    intro maxIt its msgs hk hle
    have hits : its = maxIt := by omega
    subst hits
    constructor
    · exact ⟨msgs, loop_exhaust llm runTool its its msgs (by omega)⟩
    · rw [count_exhaust llm runTool its its msgs (by omega)]
      omega
  | succ n ih =>
    intro maxIt its msgs hk hle
    have h : its < maxIt := by omega
    obtain ⟨r, hll, htc⟩ := hscript msgs
    set msgs2 := (msgs ++ [assistantMessage r]) ++
      r.tool_calls.map (fun tc => toolMessage tc.id (runTool tc.name tc.args)) with hmsgs2
    obtain ⟨ihA, ihB⟩ := ih maxIt (its + 1) msgs2 (by omega) (by omega)
    constructor
    · rw [loop_step llm runTool maxIt its msgs r h hll htc]
      exact ihA
    · rw [count_step llm runTool maxIt its msgs r h hll htc, ihB]
      omega

/-- C1: the conversation loop performs at most `maxIterations` completion
rounds no matter how many tool calls each turn requests; and against a
scripted collaborator whose every reply carries at least one tool call, it
performs exactly `maxIterations` rounds and returns the exhaustion sentinel
text in place of the final analysis. -/
theorem conversationLoop_exhaustion_bound
    (llm : List ChatMessage → Except String AssistantReply)
    (runTool : String → String → String)
    (maxIterations : Nat) (messages : List ChatMessage) :
    (∀ iterations msgs,
      llmRoundCount llm runTool maxIterations iterations msgs ≤
        maxIterations - iterations) ∧
    ((∀ ms, ∃ r, llm ms = Except.ok r ∧ r.tool_calls ≠ []) →
      (∃ hist, analyzeWithDirectCalls llm runTool maxIterations 0 messages =
         Except.ok { analysis := "Max iterations reached", toolCalls := maxIterations,
                     conversationHistory := hist }) ∧
      llmRoundCount llm runTool maxIterations 0 messages = maxIterations) := by
  constructor
  · intro its msgs
    exact llmRoundCount_le llm runTool (maxIterations - its) maxIterations its msgs le_rfl
  · intro hscript
    obtain ⟨hA, hB⟩ := loop_exhausts_on_allcalls llm runTool hscript
      (maxIterations - 0) maxIterations 0 messages rfl (by omega)
    exact ⟨hA, by omega⟩

/-- C1 witness: the scripted always-tool-calling collaborator with the cap 5
of the script reaches the sentinel after exactly 5 rounds. -/
theorem conversationLoop_exhaustion_bound_witness :
    (∃ hist, analyzeWithDirectCalls llmAlwaysCalls runToolConst 5 0 initMessages =
       Except.ok { analysis := "Max iterations reached", toolCalls := 5,
                   conversationHistory := hist }) ∧
    llmRoundCount llmAlwaysCalls runToolConst 5 0 initMessages = 5 :=
  (conversationLoop_exhaustion_bound llmAlwaysCalls runToolConst 5 initMessages).2
    (fun _ => ⟨replyOneCall, rfl, by decide⟩)

/-- C2: an assistant turn that issues tool calls is followed, before the next
completion request, by exactly one tool-result message per call, in the
order the calls were listed, each carrying the id of its call and the result
of executing that call. -/
theorem conversationLoop_pairs_tool_results
    (llm : List ChatMessage → Except String AssistantReply)
    (runTool : String → String → String)
    (maxIterations iterations : Nat) (messages : List ChatMessage)
    (r : AssistantReply)
    (h : iterations < maxIterations) (hok : llm messages = Except.ok r)
    (htc : r.tool_calls ≠ []) :
    ∃ results : List ChatMessage,
      analyzeWithDirectCalls llm runTool maxIterations iterations messages =
        analyzeWithDirectCalls llm runTool maxIterations (iterations + 1)
          ((messages ++ [assistantMessage r]) ++ results) ∧
      results.length = r.tool_calls.length ∧
      (∀ (i : Nat) (tc : ToolCall), r.tool_calls[i]? = some tc →
        results[i]? = some ({ role := Role.tool, content := runTool tc.name tc.args,
                              tool_calls := [], tool_call_id := some tc.id } : ChatMessage)) := by
  refine ⟨r.tool_calls.map (fun tc => toolMessage tc.id (runTool tc.name tc.args)),
    ?_, ?_, ?_⟩
  · exact loop_step llm runTool maxIterations iterations messages r h hok htc
  · simp
  · intro i tc hi
    simp [List.getElem?_map, hi, toolMessage]

/-- C2 witness: a concrete one-tool-call turn is paired with exactly one
tool-result message carrying its call id. -/
theorem conversationLoop_pairs_tool_results_witness :
    ∃ results : List ChatMessage,
      analyzeWithDirectCalls llmAlwaysCalls runToolConst 5 0 initMessages =
        analyzeWithDirectCalls llmAlwaysCalls runToolConst 5 1
          ((initMessages ++ [assistantMessage replyOneCall]) ++ results) ∧
      results.length = replyOneCall.tool_calls.length ∧
      (∀ (i : Nat) (tc : ToolCall), replyOneCall.tool_calls[i]? = some tc →
        results[i]? = some ({ role := Role.tool, content := runToolConst tc.name tc.args,
                              tool_calls := [], tool_call_id := some tc.id } : ChatMessage)) :=
  conversationLoop_pairs_tool_results llmAlwaysCalls runToolConst 5 0 initMessages
    replyOneCall (by omega) rfl (by decide)

/-- C8 counterexample: a no-content reply from the external process yields
the JavaScript null value, which is not a ToolError and carries no message,
refuting the claim that a no-content reply produces a ToolError value; and
get_accessibility_rules is a recognized operation name, so a connection
failure under it surfaces as its error object rather than as an unknown-name
error. -/
theorem executeFunction_noContent_yields_null :
    executeFunction callToolEmpty parseJsonId "test_html_accessibility" {} =
      ToolOutcome.nullValue ∧
    (∀ m, ToolOutcome.nullValue ≠ ToolOutcome.error m) ∧
    executeFunction callToolFail parseJsonId "get_accessibility_rules" {} =
      ToolOutcome.error "connection closed" :=
  ⟨rfl, fun _ h => ToolOutcome.noConfusion h, rfl⟩

/-- C8 (amended): the dispatcher converts a connection failure and a
malformed (unparsable) reply into error values carrying the message, and an
unrecognized operation name into an error naming it, nothing being thrown
past this layer since the function is total; a reply with no content,
however, yields the JavaScript null value rather than an error object. -/
theorem executeFunction_failure_semantics
    (callTool : String → MCPCallArgs → Except String MCPResult)
    (parseJson : String → Except String String)
    (name : String) (args : FnArgs) :
    (name ≠ "test_html_accessibility" → name ≠ "check_color_contrast" →
      name ≠ "get_accessibility_rules" →
      executeFunction callTool parseJson name args =
        ToolOutcome.error ("Unknown function: " ++ name)) ∧
    (∀ e, (name = "test_html_accessibility" ∨ name = "check_color_contrast" ∨
        name = "get_accessibility_rules") →
      (∀ n a, callTool n a = Except.error e) →
      executeFunction callTool parseJson name args = ToolOutcome.error e) ∧
    (∀ res, (name = "test_html_accessibility" ∨ name = "check_color_contrast" ∨
        name = "get_accessibility_rules") →
      (∀ n a, callTool n a = Except.ok res) →
      (res.content.head?.bind MCPContent.text = none ∨
        res.content.head?.bind MCPContent.text = some "") →
      executeFunction callTool parseJson name args = ToolOutcome.nullValue) ∧
    (∀ res t e, (name = "test_html_accessibility" ∨ name = "check_color_contrast" ∨
        name = "get_accessibility_rules") →
      (∀ n a, callTool n a = Except.ok res) →
      res.content.head?.bind MCPContent.text = some t → t ≠ "" →
      parseJson t = Except.error e →
      executeFunction callTool parseJson name args = ToolOutcome.error e) := by
  have hne1 : ("check_color_contrast" : String) ≠ "test_html_accessibility" := by decide
  have hne2 : ("get_accessibility_rules" : String) ≠ "test_html_accessibility" := by decide
  have hne3 : ("get_accessibility_rules" : String) ≠ "check_color_contrast" := by decide
  refine ⟨?_, ?_, ?_, ?_⟩
  · intro h1 h2 h3
    simp [executeFunction, executeFunctionTry, h1, h2, h3]
  · intro e hn hct
    rcases hn with rfl | rfl | rfl <;>
      simp [executeFunction, executeFunctionTry, hct, Except.bind, hne1, hne2, hne3]
  · intro res hn hct hbind
    rcases hh : res.content.head? with _ | item
    · rcases hn with rfl | rfl | rfl <;>
        simp [executeFunction, executeFunctionTry, hct, Except.bind, citedToolReply,
          hh, hne1, hne2, hne3]
    · rw [hh] at hbind
      simp only [Option.some_bind] at hbind
      rcases ht : item.text with _ | t
      · rcases hn with rfl | rfl | rfl <;>
          simp [executeFunction, executeFunctionTry, hct, Except.bind, citedToolReply,
            hh, ht, hne1, hne2, hne3]
      · rw [ht] at hbind
        simp at hbind
        subst hbind
        rcases hn with rfl | rfl | rfl <;>
          simp [executeFunction, executeFunctionTry, hct, Except.bind, citedToolReply,
            hh, ht, hne1, hne2, hne3]
  · intro res t e hn hct hbind htne hpj
    rcases hh : res.content.head? with _ | item
    · rw [hh] at hbind; simp at hbind
    · rw [hh] at hbind
      simp only [Option.some_bind] at hbind
      rcases ht : item.text with _ | t2
      · rw [ht] at hbind; simp at hbind
      · rw [ht] at hbind
        simp at hbind
        subst hbind
        rcases hn with rfl | rfl | rfl <;>
          simp [executeFunction, executeFunctionTry, hct, Except.bind, Except.map,
            citedToolReply, hh, ht, htne, hpj, hne1, hne2, hne3]

/-- C8 witness: a failing MCP connection, an empty reply and a genuinely
unknown name each yield the corresponding value at concrete inputs. -/
theorem executeFunction_failure_semantics_witness :
    executeFunction callToolFail parseJsonId "test_html_accessibility" {} =
      ToolOutcome.error "connection closed" ∧
    executeFunction callToolEmpty parseJsonId "check_color_contrast" {} =
      ToolOutcome.nullValue ∧
    executeFunction callToolFail parseJsonId "bogus_operation" {} =
      ToolOutcome.error ("Unknown function: " ++ "bogus_operation") :=
  ⟨(executeFunction_failure_semantics callToolFail parseJsonId
      "test_html_accessibility" {}).2.1 "connection closed" (Or.inl rfl)
      (fun _ _ => rfl),
   (executeFunction_failure_semantics callToolEmpty parseJsonId
      "check_color_contrast" {}).2.2.1 { content := [] } (Or.inr (Or.inl rfl))
      (fun _ _ => rfl) (Or.inl rfl),
   (executeFunction_failure_semantics callToolFail parseJsonId
      "bogus_operation" {}).1 (by decide) (by decide) (by decide)⟩

/- ===== Claim theorems: fix applier ===== -/

/-- A valid scalar below the surrogate range round-trips through
`Char.ofNat`. -/
theorem char_toNat_ofNat_lt (n : Nat) (h : n < 55296) : (Char.ofNat n).toNat = n := by
  rw [Char.ofNat, dif_pos (Or.inl h)]
  rfl

/-- Lowercasing a character is idempotent. -/
theorem toLower_toLower (c : Char) : c.toLower.toLower = c.toLower := by
  simp only [Char.toLower]
  by_cases h : c.toNat ≥ 65 ∧ c.toNat ≤ 90
  · rw [if_pos h]
    have hval : (Char.ofNat (c.toNat + 32)).toNat = c.toNat + 32 :=
      char_toNat_ofNat_lt _ (by omega)
    rw [if_neg (by omega)]
  · rw [if_neg h, if_neg h]

/-- Characters are equal when their scalar values are. -/
theorem char_eq_iff_toNat (c d : Char) : c = d ↔ c.toNat = d.toNat :=
  ⟨fun h => by rw [h], fun h => Char.eq_of_val_eq (UInt32.ext h)⟩

/-- Whitespace membership expressed through the scalar value. -/
theorem isWhitespace_of_toNat (c : Char) :
    c.isWhitespace = (decide (c.toNat = 32) || decide (c.toNat = 9) ||
      decide (c.toNat = 13) || decide (c.toNat = 10)) := by
  simp only [Char.isWhitespace]
  have e1 : decide (c = ' ') = decide (c.toNat = 32) :=
    decide_eq_decide.mpr (char_eq_iff_toNat c ' ')
  have e2 : decide (c = '\t') = decide (c.toNat = 9) :=
    decide_eq_decide.mpr (char_eq_iff_toNat c '\t')
  have e3 : decide (c = '\r') = decide (c.toNat = 13) :=
    decide_eq_decide.mpr (char_eq_iff_toNat c '\r')
  have e4 : decide (c = '\n') = decide (c.toNat = 10) :=
    decide_eq_decide.mpr (char_eq_iff_toNat c '\n')
  rw [e1, e2, e3, e4]

/-- Lowercasing does not change whether a character is whitespace. -/
theorem isWhitespace_toLower (c : Char) : c.toLower.isWhitespace = c.isWhitespace := by
  by_cases h : c.toNat ≥ 65 ∧ c.toNat ≤ 90
  · have hval : c.toLower.toNat = c.toNat + 32 := by
      simp only [Char.toLower]
      rw [if_pos h]
      exact char_toNat_ofNat_lt _ (by omega)
    rw [isWhitespace_of_toNat, isWhitespace_of_toNat c, hval]
    have hL : (decide (c.toNat + 32 = 32) || decide (c.toNat + 32 = 9) ||
        decide (c.toNat + 32 = 13) || decide (c.toNat + 32 = 10)) = false := by
      simp only [Bool.or_eq_false_iff, decide_eq_false_iff_not]
      omega
    have hR : (decide (c.toNat = 32) || decide (c.toNat = 9) ||
        decide (c.toNat = 13) || decide (c.toNat = 10)) = false := by
      simp only [Bool.or_eq_false_iff, decide_eq_false_iff_not]
      omega
    rw [hL, hR]
  · have hl : c.toLower = c := by
      simp only [Char.toLower]
      rw [if_neg h]
    rw [hl]

/-- Lowercasing a list of characters is idempotent. -/
theorem map_toLower_idem (l : List Char) :
    (l.map Char.toLower).map Char.toLower = l.map Char.toLower := by
  induction l with
  | nil => rfl
  | cons c cs ih => simp [toLower_toLower, ih]

/-- Case-insensitive prefix testing is invariant under lowercasing the
document. -/
theorem ciAt_map_toLower (pat l : List Char) :
    ciAt pat (l.map Char.toLower) = ciAt pat l := by
  unfold ciAt
  rw [← List.map_take, map_toLower_idem, List.map_take]

/-- The leading whitespace run commutes with lowercasing. -/
theorem takeWhile_ws_map_toLower (l : List Char) :
    (l.map Char.toLower).takeWhile Char.isWhitespace =
      (l.takeWhile Char.isWhitespace).map Char.toLower := by
  induction l with
  | nil => rfl
  | cons c cs ih =>
    by_cases h : c.isWhitespace
    · simp [List.takeWhile_cons, isWhitespace_toLower, h, ih]
    · simp [List.takeWhile_cons, isWhitespace_toLower, h]

/-- The `i` flag: the declaration matcher is invariant under lowercasing the
document. -/
theorem declMatchLen_map_toLower (prop old l : List Char) :
    declMatchLen prop old (l.map Char.toLower) = declMatchLen prop old l := by
  unfold declMatchLen
  simp only [ciAt_map_toLower, ← List.map_drop, takeWhile_ws_map_toLower,
    List.length_map]

/-- A successful declaration match consumes at least the property name. -/
theorem declMatchLen_pos (prop old l : List Char) (n : Nat)
    (hprop : prop ≠ []) (h : declMatchLen prop old l = some n) : 1 ≤ n := by
  unfold declMatchLen at h
  by_cases hc : ciAt prop l = true
  · rw [if_pos hc] at h
    by_cases ho : ciAt old ((l.drop prop.length).drop
        ((l.drop prop.length).takeWhile Char.isWhitespace).length) = true
    · rw [if_pos ho] at h
      have hn := Option.some.inj h
      have : 1 ≤ prop.length := List.length_pos.mpr hprop
      omega
    · rw [if_neg ho] at h
      exact absurd h (by simp)
  · rw [if_neg hc] at h
    exact absurd h (by simp)

/-- A match at the current position is replaced and scanning resumes after
it. -/
theorem replaceScan_match (prop old rep l : List Char) (n : Nat)
    (hprop : prop ≠ []) (h : declMatchLen prop old l = some n) :
    replaceScan prop old rep l = rep ++ replaceScan prop old rep (l.drop n) := by
  cases l with
  | nil =>
    exfalso
    unfold declMatchLen at h
    have hfalse : ciAt prop ([] : List Char) = false := by
      unfold ciAt
      cases prop with
      | nil => exact absurd rfl hprop
      | cons p ps => simp
    rw [hfalse] at h
    simp at h
  | cons c cs =>
    have hn : 1 ≤ n := declMatchLen_pos prop old (c :: cs) n hprop h
    rw [replaceScan, h]
    have hdrop : (c :: cs).drop n = cs.drop (n - 1) := by
      cases n with
      | zero => omega
      | succ m => simp
    rw [hdrop]

/-- A position with no match copies its character unchanged. -/
theorem replaceScan_nomatch_head (prop old rep : List Char) (c : Char) (cs : List Char)
    (h : declMatchLen prop old (c :: cs) = none) :
    replaceScan prop old rep (c :: cs) = c :: replaceScan prop old rep cs := by
  rw [replaceScan, h]

/-- A document with no match at any position is left unchanged. -/
theorem replaceScan_id_of_nomatch (prop old rep : List Char) :
    ∀ l, (∀ i, declMatchLen prop old (l.drop i) = none) →
      replaceScan prop old rep l = l := by
  intro l
  induction l with
  | nil => intro _; rw [replaceScan]
  | cons c cs ih =>
    intro h
    have h0 : declMatchLen prop old (c :: cs) = none := by simpa using h 0
    rw [replaceScan_nomatch_head prop old rep c cs h0]
    rw [ih (fun i => by simpa using h (i + 1))]

/-- C9: when a color-contrast fix whose original code is not a verbatim
substring of the document reaches the flexible fallback, the fallback
extracts the value of the `color:` declaration from the original and fixed
codes and, when both extractions succeed, replaces every non-overlapping
occurrence of that declaration in the document, case-insensitively, with the
old value matched as an escaped literal; only when the foreground extraction
fails on either code does it attempt the `background-color:` property, and
when that also fails the document is unchanged.  The last three conjuncts
state the every-occurrence scan discipline and the case-insensitivity of the
matcher. -/
theorem applyColorFixFlexible_behavior (content : String) (applied : Nat) (f : A11yFix) :
    (f.type = "color-contrast" → f.originalCode ≠ "" → f.fixedCode ≠ "" →
      strIncludes content.data f.originalCode.data = false →
      applyFixesStep content applied f =
        (if applyColorFixFlexible content f ≠ content
         then (applyColorFixFlexible content f, applied + 1)
         else (content, applied))) ∧
    (∀ o v, extractDeclValue "color:".data f.originalCode.data = some o →
      extractDeclValue "color:".data f.fixedCode.data = some v →
      applyColorFixFlexible content f =
        String.mk (replaceScan "color:".data (jsTrim o)
          ("color: ".data ++ jsTrim v) content.data)) ∧
    ((extractDeclValue "color:".data f.originalCode.data = none ∨
      extractDeclValue "color:".data f.fixedCode.data = none) →
      ∀ o v, extractDeclValue "background-color:".data f.originalCode.data = some o →
        extractDeclValue "background-color:".data f.fixedCode.data = some v →
        applyColorFixFlexible content f =
          String.mk (replaceScan "background-color:".data (jsTrim o)
            ("background-color: ".data ++ jsTrim v) content.data)) ∧
    ((extractDeclValue "color:".data f.originalCode.data = none ∨
      extractDeclValue "color:".data f.fixedCode.data = none) →
      (extractDeclValue "background-color:".data f.originalCode.data = none ∨
       extractDeclValue "background-color:".data f.fixedCode.data = none) →
      applyColorFixFlexible content f = content) ∧
    (∀ prop old rep l n, prop ≠ [] → declMatchLen prop old l = some n →
      replaceScan prop old rep l = rep ++ replaceScan prop old rep (l.drop n)) ∧
    (∀ prop old rep c cs, declMatchLen prop old (c :: cs) = none →
      replaceScan prop old rep (c :: cs) = c :: replaceScan prop old rep cs) ∧
    (∀ prop old l, declMatchLen prop old (l.map Char.toLower) = declMatchLen prop old l) := by
  refine ⟨?_, ?_, ?_, ?_, ?_, ?_, ?_⟩
  · intro htype hne1 hne2 hnotsub
    unfold applyFixesStep
    rw [if_pos ⟨hne1, hne2⟩, hnotsub]
    simp [htype]
  · intro o v ho hv
    unfold applyColorFixFlexible
    rw [ho, hv]
  · intro hfail o v ho hv
    unfold applyColorFixFlexible
    rcases hfail with h | h
    · rcases hother : extractDeclValue "color:".data f.fixedCode.data with _ | v2 <;>
        simp [h, hother, ho, hv]
    · rcases hother : extractDeclValue "color:".data f.originalCode.data with _ | o2 <;>
        simp [h, hother, ho, hv]
  · intro hfail hbgfail
    unfold applyColorFixFlexible
    rcases hfail with h | h
    · rcases hother : extractDeclValue "color:".data f.fixedCode.data with _ | v2 <;>
      rcases hbgfail with hb | hb <;>
      [ rcases hbother : extractDeclValue "background-color:".data f.fixedCode.data
          with _ | bv2;
        rcases hbother : extractDeclValue "background-color:".data f.originalCode.data
          with _ | bo2;
        rcases hbother : extractDeclValue "background-color:".data f.fixedCode.data
          with _ | bv2;
        rcases hbother : extractDeclValue "background-color:".data f.originalCode.data
          with _ | bo2 ] <;>
      simp [h, hother, hb, hbother]
    · rcases hother : extractDeclValue "color:".data f.originalCode.data with _ | o2 <;>
      rcases hbgfail with hb | hb <;>
      [ rcases hbother : extractDeclValue "background-color:".data f.fixedCode.data
          with _ | bv2;
        rcases hbother : extractDeclValue "background-color:".data f.originalCode.data
          with _ | bo2;
        rcases hbother : extractDeclValue "background-color:".data f.fixedCode.data
          with _ | bv2;
        rcases hbother : extractDeclValue "background-color:".data f.originalCode.data
          with _ | bo2 ] <;>
      simp [h, hother, hb, hbother]
  · intro prop old rep l n hprop h
    exact replaceScan_match prop old rep l n hprop h
  · intro prop old rep c cs h
    exact replaceScan_nomatch_head prop old rep c cs h
  · intro prop old l
    exact declMatchLen_map_toLower prop old l

/-- C9 witness: the concrete document and fix of the spec exercise the
foreground branch. -/
theorem applyColorFixFlexible_behavior_witness :
    applyColorFixFlexible "<p style=\"color:#777777\">x</p>"
      { type := "color-contrast", description := "d", originalCode := "color: #777777",
        fixedCode := "color: #000000", explanation := "e" } =
      String.mk (replaceScan "color:".data (jsTrim "#777777".data)
        ("color: ".data ++ jsTrim "#000000".data)
        "<p style=\"color:#777777\">x</p>".data) :=
  (applyColorFixFlexible_behavior "<p style=\"color:#777777\">x</p>" 0
      { type := "color-contrast", description := "d", originalCode := "color: #777777",
        fixedCode := "color: #000000", explanation := "e" }).2.1
    "#777777".data "#000000".data (by decide) (by decide)

/-- C10: a fix whose `originalCode` or `fixedCode` is the empty string is
never applied: the JavaScript truthiness guard skips it, leaving both the
document and the applied count unchanged, even though the empty string is a
substring of every document. -/
theorem applyFixes_skips_empty_fix (content : String) (applied : Nat) (f : A11yFix)
    (h : f.originalCode = "" ∨ f.fixedCode = "") :
    strIncludes content.data "".data = true ∧
    applyFixesStep content applied f = (content, applied) := by
  constructor
  · cases hd : content.data with
    | nil => rfl
    | cons c cs => simp [strIncludes, List.isPrefixOf]
  · unfold applyFixesStep
    rcases h with h | h <;> rw [if_neg (by simp [h])]

/-- C10 witness: a concrete empty-original fix is skipped on a concrete
document. -/
theorem applyFixes_skips_empty_fix_witness :
    strIncludes "doc".data "".data = true ∧
    applyFixesStep "doc" 0 emptyOriginalFix = ("doc", 0) :=
  applyFixes_skips_empty_fix "doc" 0 emptyOriginalFix (Or.inl rfl)

/- ===== Claim theorems: contrast computation ===== -/

/-- The hash character is not a hexadecimal digit. -/
theorem isHexDig_ne_hash (c : Char) (h : isHexDig c = true) : c ≠ '#' := by
  intro hc
  subst hc
  exact absurd h (by decide)

/-- Hexadecimal digits are not `x` or `X`. -/
theorem isHexDig_ne_x (c : Char) (h : isHexDig c = true) : c ≠ 'x' ∧ c ≠ 'X' := by
  constructor <;> intro hc <;> subst hc <;> exact absurd h (by decide)

/-- Removing the first occurrence of an absent character is the identity. -/
theorem replaceFirstChar_of_not_mem (l : List Char) (p : Char) (h : ∀ c ∈ l, c ≠ p) :
    replaceFirstChar l p = l := by
  induction l with
  | nil => rfl
  | cons c cs ih =>
    unfold replaceFirstChar
    rw [if_neg (h c (by simp))]
    rw [ih (fun d hd => h d (by simp [hd]))]

/-- On a valid color, stripping the first `#` yields exactly its digits. -/
theorem replaceFirstChar_valid (s : String) (h : isValidHexColor s = true) :
    replaceFirstChar s.data '#' = hexDigitsOf s := by
  have hall : (hexDigitsOf s).all isHexDig = true := by
    unfold isValidHexColor at h
    exact (Bool.and_eq_true_iff.mp h).2
  rcases hsd : s.data with _ | ⟨c, cs⟩
  · simp [hexDigitsOf, hsd, replaceFirstChar]
  · by_cases hc : c = '#'
    · subst hc
      simp [hexDigitsOf, hsd, replaceFirstChar]
    · have hdig : hexDigitsOf s = c :: cs := by simp [hexDigitsOf, hsd, hc]
      rw [hdig] at hall
      simp only [List.all_eq_true] at hall
      unfold replaceFirstChar
      rw [if_neg (isHexDig_ne_hash c (hall c (by simp)))]
      rw [replaceFirstChar_of_not_mem cs '#'
        (fun d hd => isHexDig_ne_hash d (hall d (by simp [hd])))]
      exact hdig.symm

/-- Stripping 0x is the identity when the second character is a hex digit. -/
theorem strip0x_pair (a b : Char) (hb : isHexDig b = true) : strip0x [a, b] = [a, b] := by
  rcases isHexDig_ne_x b hb with ⟨h1, h2⟩
  simp [strip0x, h1, h2]

/-- Parsing a two-hex-digit string yields its value. -/
theorem parseIntHex_pair (a b : Char) (ha : isHexDig a = true) (hb : isHexDig b = true) :
    parseIntHex (String.mk [a, b]) = some (hexListVal [a, b]) := by
  unfold parseIntHex
  have hdata : (String.mk [a, b]).data = [a, b] := rfl
  rw [hdata, strip0x_pair a b hb]
  simp [ha, hb, List.takeWhile_cons]

/-- The embedded piecewise linearization agrees with the spec formula on
real channel values. -/
theorem srgbComponent_num (x : ℝ) :
    srgbComponent (JSNum.num x) = JSNum.num (srgbToLinearSpec x) := by
  simp only [srgbComponent, srgbToLinearSpec]
  by_cases h : x ≤ 0.03928
  · rw [if_pos h, if_pos h]
  · rw [if_neg h, if_neg h]

/-- On a valid color the embedded luminance computes the spec formula. -/
theorem getLuminance_valid (s : String) (h : isValidHexColor s = true) :
    getLuminance s = JSNum.num (colorLuminanceSpec s) := by
  have hlen : (hexDigitsOf s).length = 6 := by
    unfold isValidHexColor at h
    have := (Bool.and_eq_true_iff.mp h).1
    simpa using this
  have hall : ∀ c ∈ hexDigitsOf s, isHexDig c = true := by
    unfold isValidHexColor at h
    have := (Bool.and_eq_true_iff.mp h).2
    simpa [List.all_eq_true] using this
  rcases hds : hexDigitsOf s with _ | ⟨d0, _ | ⟨d1, _ | ⟨d2, _ | ⟨d3, _ | ⟨d4, _ | ⟨d5, rest⟩⟩⟩⟩⟩⟩ <;>
    rw [hds] at hlen <;> simp at hlen
  subst hlen
  rw [hds] at hall
  have h0 : isHexDig d0 = true := hall d0 (by simp)
  have h1 : isHexDig d1 = true := hall d1 (by simp)
  have h2 : isHexDig d2 = true := hall d2 (by simp)
  have h3 : isHexDig d3 = true := hall d3 (by simp)
  have h4 : isHexDig d4 = true := hall d4 (by simp)
  have h5 : isHexDig d5 = true := hall d5 (by simp)
  have hrep : replaceFirstChar s.data '#' = [d0, d1, d2, d3, d4, d5] :=
    (replaceFirstChar_valid s h).trans hds
  simp only [getLuminance]
  rw [hrep]
  have hs0 : jsSubstr (String.mk [d0, d1, d2, d3, d4, d5]) 0 2 = String.mk [d0, d1] := rfl
  have hs2 : jsSubstr (String.mk [d0, d1, d2, d3, d4, d5]) 2 2 = String.mk [d2, d3] := rfl
  have hs4 : jsSubstr (String.mk [d0, d1, d2, d3, d4, d5]) 4 2 = String.mk [d4, d5] := rfl
  rw [hs0, hs2, hs4, parseIntHex_pair d0 d1 h0 h1, parseIntHex_pair d2 d3 h2 h3,
    parseIntHex_pair d4 d5 h4 h5]
  simp only [channelToJS]
  rw [srgbComponent_num, srgbComponent_num, srgbComponent_num]
  unfold colorLuminanceSpec relativeLuminanceSpec channel
  rw [hds]
  simp only [List.drop, List.take]
  rfl

/-- JavaScript Math.max on the NaN-extended numbers is commutative. -/
theorem jmax_comm (a b : JSNum) : JSNum.jmax a b = JSNum.jmax b a := by
  cases a <;> cases b <;> simp [JSNum.jmax, max_comm]

/-- JavaScript Math.min on the NaN-extended numbers is commutative. -/
theorem jmin_comm (a b : JSNum) : JSNum.jmin a b = JSNum.jmin b a := by
  cases a <;> cases b <;> simp [JSNum.jmin, min_comm]

/-- Passing a larger threshold implies passing a smaller one. -/
theorem jge_mono (r : JSNum) (a b : ℝ) (hab : a ≤ b) (h : JSNum.jge r b = true) :
    JSNum.jge r a = true := by
  cases r with
  | nan => simp [JSNum.jge] at h
  | num x =>
    simp only [JSNum.jge, decide_eq_true_eq] at h ⊢
    linarith

/-- C5: on valid six-hex-digit colors the fallback converts each channel to
the unit interval, applies the piecewise sRGB linearization, takes the
weighted luminance sum, and returns the ratio of the adjusted maximum and
minimum luminances; `passes` and `wcagAA` hold exactly when that ratio is at
least 4.5 and `wcagAAA` exactly when it is at least 7.0. -/
theorem calculateContrastRatio_valid (c1 c2 : String)
    (h1 : isValidHexColor c1 = true) (h2 : isValidHexColor c2 = true) :
    (calculateContrastRatio c1 c2).contrastRatio =
      JSNum.num (contrastRatioSpec (colorLuminanceSpec c1) (colorLuminanceSpec c2)) ∧
    ((calculateContrastRatio c1 c2).passes = true ↔
      4.5 ≤ contrastRatioSpec (colorLuminanceSpec c1) (colorLuminanceSpec c2)) ∧
    ((calculateContrastRatio c1 c2).wcagAA = true ↔
      4.5 ≤ contrastRatioSpec (colorLuminanceSpec c1) (colorLuminanceSpec c2)) ∧
    ((calculateContrastRatio c1 c2).wcagAAA = true ↔
      7.0 ≤ contrastRatioSpec (colorLuminanceSpec c1) (colorLuminanceSpec c2)) := by
  have hl1 := getLuminance_valid c1 h1
  have hl2 := getLuminance_valid c2 h2
  simp only [calculateContrastRatio, hl1, hl2, JSNum.jmax, JSNum.jmin, JSNum.add,
    JSNum.jdiv, JSNum.jge, contrastRatioSpec, decide_eq_true_eq]
  exact ⟨trivial, trivial, trivial, trivial⟩

/-- C6: the contrast computation is symmetric in its two colors, every field
of the result included. -/
theorem calculateContrastRatio_symm (c1 c2 : String)
    (h1 : isValidHexColor c1 = true) (h2 : isValidHexColor c2 = true) :
    calculateContrastRatio c1 c2 = calculateContrastRatio c2 c1 := by
  simp only [calculateContrastRatio]
  rw [jmax_comm, jmin_comm]

/-- C7: `passes` coincides with `wcagAA`, and `wcagAAA` implies `wcagAA`. -/
theorem contrastResult_flag_invariants (c1 c2 : String)
    (h1 : isValidHexColor c1 = true) (h2 : isValidHexColor c2 = true) :
    (calculateContrastRatio c1 c2).passes = (calculateContrastRatio c1 c2).wcagAA ∧
    ((calculateContrastRatio c1 c2).wcagAAA = true →
      (calculateContrastRatio c1 c2).wcagAA = true) := by
  constructor
  · rfl
  · intro h
    exact jge_mono ((calculateContrastRatio c1 c2).contrastRatio) 4.5 7.0 (by norm_num) h

/-- C4: evaluation at the failing input `("red", "#000000")`: the malformed
color yields NaN which propagates to the ratio, so all flags are false but
the ratio is NaN rather than the documented conservative value 1.0 - the
catch branch that would return 1.0 is unreachable because JavaScript
`parseInt` returns NaN instead of throwing. -/
theorem calculateContrastRatio_malformed_nan :
    (calculateContrastRatio "red" "#000000").contrastRatio = JSNum.nan ∧
    (calculateContrastRatio "red" "#000000").passes = false ∧
    (calculateContrastRatio "red" "#000000").wcagAA = false ∧
    (calculateContrastRatio "red" "#000000").wcagAAA = false ∧
    JSNum.nan ≠ JSNum.num 1 :=
  ⟨rfl, rfl, rfl, rfl, fun h => JSNum.noConfusion h⟩

/-- C5 witness: black on white is a valid pair and the ratio field equals
the spec formula there. -/
theorem calculateContrastRatio_valid_witness :
    isValidHexColor "#000000" = true ∧ isValidHexColor "#ffffff" = true ∧
    ((calculateContrastRatio "#000000" "#ffffff").contrastRatio =
      JSNum.num (contrastRatioSpec (colorLuminanceSpec "#000000")
        (colorLuminanceSpec "#ffffff"))) :=
  ⟨by decide, by decide,
    (calculateContrastRatio_valid "#000000" "#ffffff" (by decide) (by decide)).1⟩

/-- C6 witness: symmetry at a concrete valid color pair. -/
theorem calculateContrastRatio_symm_witness :
    calculateContrastRatio "#1a2b3c" "#ffffff" = calculateContrastRatio "#ffffff" "#1a2b3c" :=
  calculateContrastRatio_symm "#1a2b3c" "#ffffff" (by decide) (by decide)

/-- C7 witness: flag invariants at a concrete valid color pair. -/
theorem contrastResult_flag_invariants_witness :
    (calculateContrastRatio "#123456" "#abcdef").passes =
      (calculateContrastRatio "#123456" "#abcdef").wcagAA ∧
    ((calculateContrastRatio "#123456" "#abcdef").wcagAAA = true →
      (calculateContrastRatio "#123456" "#abcdef").wcagAA = true) :=
  contrastResult_flag_invariants "#123456" "#abcdef" (by decide) (by decide)
